import Mathlib

/-!
Verification of the robot_game repository: a UDP-controlled actor
(`robot.py`) and its gesture sequencer (`cliente_robot.py`).

Python strings are modelled as Lean `String`s; the Python operations
`split(";")`, `lower()`, `upper()` and `strip()` are embedded as
char-list functions (`pySplitSemi`, `pyLower`, `pyUpper`, `pyTrim`) so
that every definition evaluates inside the kernel.  Python integers are
`ℤ`, the float `velocidade` is `ℚ`, and `time.sleep` intervals are
recorded next to each transmitted frame as a `ℚ` tag.  A raised,
uncaught Python exception is an `Except.error`.
-/

namespace RobotGame

/-- Splits a list of characters at every `';'`, matching Python's
`str.split(";")` (which never returns an empty list). -/
def splitSemiL : List Char → List (List Char)
  | [] => [[]]
  | c :: rest =>
    match splitSemiL rest with
    | [] => [[]]
    | seg :: segs => if c = ';' then [] :: seg :: segs else (c :: seg) :: segs

/-- Python `s.split(";")`. -/
def pySplitSemi (s : String) : List String := (splitSemiL s.data).map fun l => ⟨l⟩

/-- Python `s.lower()`. -/
def pyLower (s : String) : String := ⟨s.data.map Char.toLower⟩

/-- Python `s.upper()`. -/
def pyUpper (s : String) : String := ⟨s.data.map Char.toUpper⟩

/-- Python `s.strip()`: drop leading and trailing whitespace. -/
def pyTrim (s : String) : String :=
  ⟨((s.data.dropWhile Char.isWhitespace).reverse.dropWhile Char.isWhitespace).reverse⟩

/-- The four primitive commands of the wire protocol. -/
inductive Cmd
  | up
  | down
  | left
  | right
deriving DecidableEq, Repr

/-- The direction name used both by the sequencer's f-strings
(`f"controle;{direcao}"` in `cliente_robot.py`) and by the actor's
`Robot.update` string matches in `robot.py`. -/
def cmdStr : Cmd → String
  | .up => "up"
  | .down => "down"
  | .left => "left"
  | .right => "right"

/-- Wire encoding of a command: the sequencer always transmits
`"controle;" ++ direction` (`cliente_robot.py`, every gesture builds
frames as `f"controle;{...}"`). -/
def encode (c : Cmd) : String := "controle;" ++ cmdStr c

/-- One decoding step of `receive_commands` in `robot.py`:
`res = data.decode("utf-8").strip().lower().split(";")`, then
`current_command = res[1]` when `res[0] == "controle"`, and
`current_command = None` otherwise.  `res[1]` on a one-element list
raises `IndexError`, which `receive_commands` does not catch (only
`BlockingIOError` is caught), so that case is `Except.error ()`:
the receive thread dies.  An `Except.ok v` is the value written into
the latest-wins slot. -/
def decodeFrame (data : String) : Except Unit (Option String) :=
  let res := pySplitSemi (pyLower (pyTrim data))
  if res.get? 0 = some "controle" then
    match res.get? 1 with
    | some c => .ok (some c)
    | none => .error ()
  else .ok none

/-- The receiver's write into the latest-wins slot (`robot.py` line 85
resp. 87, under `command_lock`): the previous content is overwritten,
never queued. -/
def publish (c : Option String) (_slot : Option String) : Option String := c

/-- The simulation tick's drain of the slot (`robot.py` lines 103-105,
under `command_lock`): return the current content and reset the slot to
empty. -/
def take (slot : Option String) : Option String × Option String := (slot, none)

/-- `Robot.update` from `robot.py`: applies a drained command to the
actor's position with no boundary check of any kind.  `command` may be
`None` (falsy, nothing happens); an unrecognised string matches no
branch and leaves the position unchanged.  The sprite's `direction`
field is irrelevant to position and omitted. -/
def robotUpdate (pos : ℤ × ℤ) (command : Option String) : ℤ × ℤ :=
  match command with
  | none => pos
  | some c =>
    if c = "up" then (pos.1, pos.2 - 10)
    else if c = "down" then (pos.1, pos.2 + 10)
    else if c = "left" then (pos.1 - 10, pos.2)
    else if c = "right" then (pos.1 + 10, pos.2)
    else pos

/-- Applying a sequence of drained commands, one per tick. -/
def robotApply (pos : ℤ × ℤ) (cmds : List String) : ℤ × ℤ :=
  cmds.foldl (fun p c => robotUpdate p (some c)) pos

/-- The actor's initial position: `robot.py` sets
`rect.center = (screen_width // 2, screen_height // 1.2)`, i.e.
`(400, 500)` for the 800×600 screen (`600 // 1.2 == 500.0`). -/
def robotInit : ℤ × ℤ := (400, 500)

/-- The sequencer's configuration (`RobotSocketController.__init__`):
screen size and step sizes are constructor parameters, the margins are
the hard-coded `self.margin_x = 25`, `self.margin_y = 35`. -/
structure Cfg where
  width : ℤ
  height : ℤ
  margin_x : ℤ
  margin_y : ℤ
  distancia : ℤ
  altura : ℤ
deriving DecidableEq, Repr

/-- The constructor defaults: 800×600 screen, margins (25, 35),
`distancia = 10`, `altura = 10`. -/
def defaultCfg : Cfg :=
  { width := 800, height := 600, margin_x := 25, margin_y := 35
    distancia := 10, altura := 10 }

/-- The sequencer's mirrored position `(self.pos_x, self.pos_y)`. -/
structure SeqState where
  x : ℤ
  y : ℤ
deriving DecidableEq, Repr

/-- The sequencer's initial mirrored position
`(screen_width // 2, screen_height // 1.2)` at the default 800×600
configuration, namely `(400, 500.0)`. -/
def seqInit : SeqState := ⟨400, 500⟩

/-- `_calcular_deslocamento`: displacement of one primitive command.
`dx, dy` start at `0, 0`; an unrecognised command therefore yields
`(0, 0)`. -/
def calcularDeslocamento (cfg : Cfg) (comando : String) : ℤ × ℤ :=
  if comando = "up" then (0, -cfg.distancia)
  else if comando = "down" then (0, cfg.distancia)
  else if comando = "left" then (-cfg.distancia, 0)
  else if comando = "right" then (cfg.distancia, 0)
  else (0, 0)

/-- `_validar_movimento`: the displaced point must satisfy
`margin_x <= novo_x <= width - margin_x` and
`margin_y <= novo_y <= height - margin_y`. -/
def validarMovimento (cfg : Cfg) (st : SeqState) (dx dy : ℤ) : Bool :=
  let novo_x := st.x + dx
  let novo_y := st.y + dy
  decide ((cfg.margin_x ≤ novo_x ∧ novo_x ≤ cfg.width - cfg.margin_x) ∧
          (cfg.margin_y ≤ novo_y ∧ novo_y ≤ cfg.height - cfg.margin_y))

/-- The spec's arena box, as a proposition on a point. -/
def inBoundsPt (cfg : Cfg) (x y : ℤ) : Prop :=
  cfg.margin_x ≤ x ∧ x ≤ cfg.width - cfg.margin_x ∧
  cfg.margin_y ≤ y ∧ y ≤ cfg.height - cfg.margin_y

instance (cfg : Cfg) (x y : ℤ) : Decidable (inBoundsPt cfg x y) := by
  unfold inBoundsPt; infer_instance

/-- `_send_message`: extract `mensagem.split(";")[1]` (an `IndexError`
is caught and logged, nothing is sent), compute the displacement,
validate, and only on success update the mirrored position and transmit
the frame.  Returns the new state and the list of frames actually
handed to `sendto`. -/
def sendMessage (cfg : Cfg) (st : SeqState) (mensagem : String) :
    SeqState × List String :=
  match (pySplitSemi mensagem).get? 1 with
  | none => (st, [])
  | some command =>
    let d := calcularDeslocamento cfg command
    if validarMovimento cfg st d.1 d.2 then
      (⟨st.x + d.1, st.y + d.2⟩, [mensagem])
    else (st, [])

/-- `_executar_sequencia_movimentos`: for each scheduled frame, parse
the command (any exception is caught per item and the loop continues),
validate against the current mirrored position, and on success call
`_send_message` (which re-parses and re-validates against the same
state) followed by `time.sleep(intervalo)`.  Each transmitted frame is
returned paired with the `intervalo` slept after it; a rejected or
unparseable step contributes nothing and the remaining schedule
continues. -/
def execSeq (cfg : Cfg) : SeqState → List String → ℚ → SeqState × List (String × ℚ)
  | st, [], _ => (st, [])
  | st, mov :: rest, intervalo =>
    match (pySplitSemi mov).get? 1 with
    | none => execSeq cfg st rest intervalo
    | some command =>
      let d := calcularDeslocamento cfg command
      if validarMovimento cfg st d.1 d.2 then
        let s1 := sendMessage cfg st mov
        let s2 := execSeq cfg s1.1 rest intervalo
        (s2.1, s1.2.map (fun m => (m, intervalo)) ++ s2.2)
      else
        execSeq cfg st rest intervalo

/-- One ascent (or descent) loop of `jump`: `n` iterations, each doing
`_executar_sequencia_movimentos(["controle;" + vert])` followed, when a
lateral direction was requested, by
`_executar_sequencia_movimentos(["controle;" + direcao])`.  The extra
`time.sleep(0.005)` calls affect no frame and are not modelled;
`_executar_sequencia_movimentos` runs at its default
`intervalo = 0.05`. -/
def jumpLoop (cfg : Cfg) (vert : String) (direcao : Option String) :
    ℕ → SeqState → SeqState × List (String × ℚ)
  | 0, st => (st, [])
  | n + 1, st =>
    let s1 := execSeq cfg st ["controle;" ++ vert] 0.05
    let s2 := match direcao with
      | some d => execSeq cfg s1.1 ["controle;" ++ d] 0.05
      | none => (s1.1, [])
    let s3 := jumpLoop cfg vert direcao n s2.1
    (s3.1, s1.2 ++ s2.2 ++ s3.2)

/-- `jump`: refuse (log only, nothing sent) when a lateral direction is
given but is neither `"right"` nor `"left"`, or when
`pos_y <= margin_y`; otherwise `altura` up-iterations then `altura`
down-iterations, laterals interleaved.  Python's `if direcao:` treats
the empty string like `None`, hence the normalisation. -/
def jump (cfg : Cfg) (st : SeqState) (direcao₀ : Option String) :
    SeqState × List (String × ℚ) :=
  let direcao := if direcao₀ = some "" then none else direcao₀
  if (match direcao with
      | some d => decide (d ≠ "right" ∧ d ≠ "left")
      | none => false) then (st, [])
  else if st.y ≤ cfg.margin_y then (st, [])
  else
    let s1 := jumpLoop cfg "up" direcao cfg.altura.toNat st
    let s2 := jumpLoop cfg "down" direcao cfg.altura.toNat s1.1
    (s2.1, s1.2 ++ s2.2)

/-- `run`: `velocidade <= 0` raises `ValueError`, which the handler
logs and re-raises to the caller — nothing is transmitted and the
mirrored position is untouched.  Otherwise `distancia` copies of the
frame are executed with `intervalo = 1 / velocidade`. -/
def run (cfg : Cfg) (st : SeqState) (comando : String) (velocidade : ℚ) :
    Except String (SeqState × List (String × ℚ)) :=
  if velocidade ≤ 0 then .error "InvalidSpeed"
  else .ok (execSeq cfg st
    (List.replicate cfg.distancia.toNat ("controle;" ++ comando)) (1 / velocidade))

/-- `walk`: `distancia` copies of the frame at the fixed
`intervalo = 1 / 5`. -/
def walk (cfg : Cfg) (st : SeqState) (comando : String) :
    SeqState × List (String × ℚ) :=
  execSeq cfg st (List.replicate cfg.distancia.toNat ("controle;" ++ comando)) (1 / 5)

/-- `dodge`: a direction other than `"right"`/`"left"` raises
`ValueError` to the caller; otherwise `distancia` frames in the given
direction, then `distancia` frames in the opposite one, both at the
default `intervalo = 0.05`. -/
def dodge (cfg : Cfg) (st : SeqState) (direcao : String) :
    Except String (SeqState × List (String × ℚ)) :=
  if direcao ≠ "right" ∧ direcao ≠ "left" then .error "InvalidDirection"
  else
    let direcao_oposta := if direcao = "right" then "left" else "right"
    let s1 := execSeq cfg st
      (List.replicate cfg.distancia.toNat ("controle;" ++ direcao)) 0.05
    let s2 := execSeq cfg s1.1
      (List.replicate cfg.distancia.toNat ("controle;" ++ direcao_oposta)) 0.05
    .ok (s2.1, s1.2 ++ s2.2)

end RobotGame

namespace RobotGame

/-! ### Basic lemmas about the validator and the displacement table -/

theorem validar_iff (cfg : Cfg) (st : SeqState) (dx dy : ℤ) :
    validarMovimento cfg st dx dy = true ↔
      inBoundsPt cfg (st.x + dx) (st.y + dy) := by
  simp [validarMovimento, inBoundsPt, and_assoc]

theorem calc_up (cfg : Cfg) : calcularDeslocamento cfg "up" = (0, -cfg.distancia) := rfl

theorem calc_down (cfg : Cfg) : calcularDeslocamento cfg "down" = (0, cfg.distancia) := rfl

theorem calc_left (cfg : Cfg) : calcularDeslocamento cfg "left" = (-cfg.distancia, 0) := rfl

theorem calc_right (cfg : Cfg) : calcularDeslocamento cfg "right" = (cfg.distancia, 0) := rfl

/-! ### C2: the boundary validator -/

/-- C2: for every position `p` and every command `c` in
{up, down, left, right}, the boundary validator returns true iff the
point obtained by displacing `p` by the command's step
(up: −dy, down: +dy, left: −dx, right: +dx, step distance from the
configuration) lies within
`[margin_x, width − margin_x] × [margin_y, height − margin_y]`. -/
theorem validate_iff_displaced_in_box (cfg : Cfg) (st : SeqState) (c : Cmd) :
    validarMovimento cfg st (calcularDeslocamento cfg (cmdStr c)).1
        (calcularDeslocamento cfg (cmdStr c)).2 = true ↔
      inBoundsPt cfg
        (st.x + (match c with
          | .left => -cfg.distancia | .right => cfg.distancia | _ => 0))
        (st.y + (match c with
          | .up => -cfg.distancia | .down => cfg.distancia | _ => 0)) := by
  cases c <;>
    simp [validarMovimento, inBoundsPt, calcularDeslocamento, cmdStr, and_assoc]

/-! ### C3: the latest-wins slot -/

/-- C3: starting from any slot state, publishing `a`, `b`, `c` in
sequence with no intervening `take` leaves the slot holding exactly
`c`; the next `take` returns `c` and empties the slot, and a second
immediate `take` returns empty.  Each publish overwrites the pending
value rather than queueing it. -/
theorem slot_latest_wins (s : Option String) (a b c : String) :
    take (publish (some c) (publish (some b) (publish (some a) s))) = (some c, none) ∧
    take ((take (publish (some c) (publish (some b) (publish (some a) s)))).2) =
      (none, none) :=
  ⟨rfl, rfl⟩

/-! ### C4: encode/decode round trip -/

/-- C4: for every command `c`, decoding the encoding of `c` yields
`Ok c`: `encode` produces exactly `"controle;" ++ direction`, and the
receiver's decode (trim, lowercase, split on `";"`) recovers the same
command, including when the wire bytes differ only in letter case. -/
theorem decode_encode_roundtrip (c : Cmd) :
    encode c = "controle;" ++ cmdStr c ∧
    decodeFrame (encode c) = .ok (some (cmdStr c)) ∧
    decodeFrame (pyUpper (encode c)) = .ok (some (cmdStr c)) := by
  cases c <;> exact ⟨rfl, rfl, rfl⟩

/-! ### C8: malformed datagrams (code bug) -/

/-- C8 is a code bug: `receive_commands` catches only
`BlockingIOError`.  The datagram `"controle"` (fewer than 2 fields)
makes `res[1]` raise an uncaught `IndexError`, modelled as
`Except.error ()`: the receive loop crashes instead of dropping the
datagram.  Moreover a frame whose first field is not `"controle"`
writes `None` into the slot, erasing a pending command, and an
unrecognised direction such as `"foo"` is published verbatim — in both
cases the simulation-visible slot is affected by the bad datagram. -/
theorem receive_malformed_crash :
    decodeFrame "controle" = Except.error () ∧
    decodeFrame "foo;bar" = Except.ok none ∧
    publish none (some "up") = none ∧
    decodeFrame "controle;foo" = Except.ok (some "foo") ∧
    publish (some "foo") (some "up") = some "foo" :=
  ⟨rfl, rfl, rfl, rfl, rfl⟩

/-! ### C1: the position invariant -/

theorem sendMessage_bounds (cfg : Cfg) (st : SeqState) (msg : String)
    (h : inBoundsPt cfg st.x st.y) :
    inBoundsPt cfg (sendMessage cfg st msg).1.x (sendMessage cfg st msg).1.y := by
  unfold sendMessage
  cases hs : (pySplitSemi msg).get? 1 with
  | none => exact h
  | some command =>
    simp only
    by_cases hv : validarMovimento cfg st (calcularDeslocamento cfg command).1
        (calcularDeslocamento cfg command).2 = true
    · rw [if_pos hv]
      exact (validar_iff cfg st _ _).mp hv
    · rw [if_neg hv]
      exact h

theorem execSeq_bounds (cfg : Cfg) (movs : List String) :
    ∀ (st : SeqState) (i : ℚ), inBoundsPt cfg st.x st.y →
      inBoundsPt cfg (execSeq cfg st movs i).1.x (execSeq cfg st movs i).1.y := by
  induction movs with
  | nil => intro st i h; exact h
  | cons mov rest ih =>
    intro st i h
    unfold execSeq
    cases hs : (pySplitSemi mov).get? 1 with
    | none => exact ih st i h
    | some command =>
      simp only
      by_cases hv : validarMovimento cfg st (calcularDeslocamento cfg command).1
          (calcularDeslocamento cfg command).2 = true
      · rw [if_pos hv]
        exact ih _ i (sendMessage_bounds cfg st mov h)
      · rw [if_neg hv]
        exact ih st i h

theorem sendMessage_blocked (cfg : Cfg) (st : SeqState) (msg command : String)
    (hs : (pySplitSemi msg).get? 1 = some command)
    (hnb : ¬ inBoundsPt cfg (st.x + (calcularDeslocamento cfg command).1)
      (st.y + (calcularDeslocamento cfg command).2)) :
    sendMessage cfg st msg = (st, []) := by
  unfold sendMessage
  rw [hs]
  exact if_neg (fun hv => hnb ((validar_iff cfg st _ _).mp hv))

/-- C1, corrected.  The claim is false for the actor's authoritative
position: `Robot.update` applies every drained command with no boundary
check whatsoever (see `robot_position_escapes_bounds`).  Amended claim:
the invariant holds for the sequencer's *mirrored* position — from any
in-bounds mirrored position, `_send_message` (the only place the
mirrored position is updated) and any gesture schedule run through
`_executar_sequencia_movimentos` keep the position inside
`[margin_x, width − margin_x] × [margin_y, height − margin_y]`; and a
command whose displaced point would violate the bounds is neither
applied to the mirrored position nor transmitted — `_send_message`
leaves the position unchanged and hands nothing to `sendto`. -/
theorem seq_position_invariant (cfg : Cfg) (st : SeqState)
    (h : inBoundsPt cfg st.x st.y) :
    (∀ msg : String,
      inBoundsPt cfg (sendMessage cfg st msg).1.x (sendMessage cfg st msg).1.y) ∧
    (∀ (movs : List String) (i : ℚ),
      inBoundsPt cfg (execSeq cfg st movs i).1.x (execSeq cfg st movs i).1.y) ∧
    (∀ msg command : String,
      (pySplitSemi msg).get? 1 = some command →
      ¬ inBoundsPt cfg (st.x + (calcularDeslocamento cfg command).1)
        (st.y + (calcularDeslocamento cfg command).2) →
      sendMessage cfg st msg = (st, [])) :=
  ⟨fun msg => sendMessage_bounds cfg st msg h,
   fun movs i => execSeq_bounds cfg movs st i h,
   fun msg command hs hnb => sendMessage_blocked cfg st msg command hs hnb⟩

/-- Witness for `seq_position_invariant` at the default configuration:
in-bounds preservation from the initial mirrored position (400, 500),
and a blocked "left" step from the in-bounds position (30, 500) — the
displaced x = 20 < 25 would breach the margin, so nothing is applied
and nothing transmitted. -/
theorem seq_position_invariant_witness :
    inBoundsPt defaultCfg
      (sendMessage defaultCfg ⟨400, 500⟩ "controle;up").1.x
      (sendMessage defaultCfg ⟨400, 500⟩ "controle;up").1.y ∧
    inBoundsPt defaultCfg
      (execSeq defaultCfg ⟨400, 500⟩ ["controle;down", "controle;left"] 0.05).1.x
      (execSeq defaultCfg ⟨400, 500⟩ ["controle;down", "controle;left"] 0.05).1.y ∧
    sendMessage defaultCfg ⟨30, 500⟩ "controle;left" = (⟨30, 500⟩, []) :=
  ⟨(seq_position_invariant defaultCfg ⟨400, 500⟩ (by decide)).1 "controle;up",
   (seq_position_invariant defaultCfg ⟨400, 500⟩ (by decide)).2.1
     ["controle;down", "controle;left"] 0.05,
   (seq_position_invariant defaultCfg ⟨30, 500⟩ (by decide)).2.2
     "controle;left" "left" rfl (by decide)⟩

/-- C1 counterexample: the claim as stated is false for the actor's
authoritative position.  Starting from the actor's initial position
(400, 500) and applying the drained command "down" seven times — each
one an applied command under `Robot.update` — the resulting `y = 570`
violates `y ≤ height − margin_y = 565`. -/
theorem robot_position_escapes_bounds :
    robotApply robotInit (List.replicate 7 "down") = (400, 570) ∧
    ¬ (35 ≤ (robotApply robotInit (List.replicate 7 "down")).2 ∧
       (robotApply robotInit (List.replicate 7 "down")).2 ≤ 600 - 35) := by
  exact ⟨by decide, by decide⟩

end RobotGame

namespace RobotGame

/-! ### Unfolding lemmas for `sendMessage` and `execSeq` -/

theorem sendMessage_some_valid (cfg : Cfg) (st : SeqState) (mov command : String)
    (hs : (pySplitSemi mov).get? 1 = some command)
    (hv : validarMovimento cfg st (calcularDeslocamento cfg command).1
      (calcularDeslocamento cfg command).2 = true) :
    sendMessage cfg st mov =
      (⟨st.x + (calcularDeslocamento cfg command).1,
        st.y + (calcularDeslocamento cfg command).2⟩, [mov]) := by
  unfold sendMessage
  rw [hs]
  simp only [hv, if_true]

theorem execSeq_nil (cfg : Cfg) (st : SeqState) (i : ℚ) :
    execSeq cfg st [] i = (st, []) := rfl

theorem execSeq_cons_noparse (cfg : Cfg) (st : SeqState) (mov : String)
    (rest : List String) (i : ℚ) (hs : (pySplitSemi mov).get? 1 = none) :
    execSeq cfg st (mov :: rest) i = execSeq cfg st rest i := by
  conv_lhs => rw [execSeq]
  rw [hs]

theorem execSeq_cons_invalid (cfg : Cfg) (st : SeqState) (mov command : String)
    (rest : List String) (i : ℚ)
    (hs : (pySplitSemi mov).get? 1 = some command)
    (hv : validarMovimento cfg st (calcularDeslocamento cfg command).1
      (calcularDeslocamento cfg command).2 = false) :
    execSeq cfg st (mov :: rest) i = execSeq cfg st rest i := by
  conv_lhs => rw [execSeq]
  rw [hs]
  simp only [hv, Bool.false_eq_true, if_false]

theorem execSeq_cons_valid (cfg : Cfg) (st : SeqState) (mov command : String)
    (rest : List String) (i : ℚ)
    (hs : (pySplitSemi mov).get? 1 = some command)
    (hv : validarMovimento cfg st (calcularDeslocamento cfg command).1
      (calcularDeslocamento cfg command).2 = true) :
    execSeq cfg st (mov :: rest) i =
      ((execSeq cfg ⟨st.x + (calcularDeslocamento cfg command).1,
          st.y + (calcularDeslocamento cfg command).2⟩ rest i).1,
       (mov, i) :: (execSeq cfg ⟨st.x + (calcularDeslocamento cfg command).1,
          st.y + (calcularDeslocamento cfg command).2⟩ rest i).2) := by
  conv_lhs => rw [execSeq]
  rw [hs]
  simp only [hv, if_true, sendMessage_some_valid cfg st mov command hs hv]
  simp

theorem execSeq_append (cfg : Cfg) (l1 l2 : List String) :
    ∀ (st : SeqState) (i : ℚ),
      execSeq cfg st (l1 ++ l2) i =
        ((execSeq cfg (execSeq cfg st l1 i).1 l2 i).1,
         (execSeq cfg st l1 i).2 ++ (execSeq cfg (execSeq cfg st l1 i).1 l2 i).2) := by
  induction l1 with
  | nil => intro st i; simp [execSeq_nil]
  | cons mov rest ih =>
    intro st i
    rw [List.cons_append]
    cases hs : (pySplitSemi mov).get? 1 with
    | none =>
      rw [execSeq_cons_noparse cfg st mov (rest ++ l2) i hs,
          execSeq_cons_noparse cfg st mov rest i hs, ih st i]
    | some command =>
      by_cases hv : validarMovimento cfg st (calcularDeslocamento cfg command).1
          (calcularDeslocamento cfg command).2 = true
      · rw [execSeq_cons_valid cfg st mov command (rest ++ l2) i hs hv,
            execSeq_cons_valid cfg st mov command rest i hs hv, ih _ i]
        simp
      · rw [execSeq_cons_invalid cfg st mov command (rest ++ l2) i hs
              (Bool.eq_false_iff.mpr hv),
            execSeq_cons_invalid cfg st mov command rest i hs
              (Bool.eq_false_iff.mpr hv), ih st i]

end RobotGame

namespace RobotGame

/-! ### C9: a blocked step is skipped, the schedule continues -/

/-- C9: within any scheduled command list `pre ++ mov :: post` (as built
by jump, dodge, run and walk), if the boundary validator rejects `mov`
at the state reached after `pre`, then `mov` is skipped — not
transmitted, the mirrored position untouched, no error raised — and the
remaining schedule `post` executes exactly as it would have from that
state. -/
theorem gesture_skips_blocked_step (cfg : Cfg) (st : SeqState) (i : ℚ)
    (pre post : List String) (mov command : String)
    (hs : (pySplitSemi mov).get? 1 = some command)
    (hblocked : validarMovimento cfg (execSeq cfg st pre i).1
      (calcularDeslocamento cfg command).1
      (calcularDeslocamento cfg command).2 = false) :
    execSeq cfg st (pre ++ mov :: post) i =
      ((execSeq cfg (execSeq cfg st pre i).1 post i).1,
       (execSeq cfg st pre i).2 ++
         (execSeq cfg (execSeq cfg st pre i).1 post i).2) := by
  rw [execSeq_append cfg pre (mov :: post) st i,
      execSeq_cons_invalid cfg (execSeq cfg st pre i).1 mov command post i hs hblocked]

/-- Witness for `gesture_skips_blocked_step`: at the default
configuration from (30, 500), after one "up" step the "left" step to
x = 20 < 25 is blocked and skipped while the following "down" step
still executes. -/
theorem gesture_skips_blocked_step_witness :
    execSeq defaultCfg ⟨30, 500⟩
        (["controle;up"] ++ "controle;left" :: ["controle;down"]) 0.05 =
      ((execSeq defaultCfg (execSeq defaultCfg ⟨30, 500⟩ ["controle;up"] 0.05).1
          ["controle;down"] 0.05).1,
       (execSeq defaultCfg ⟨30, 500⟩ ["controle;up"] 0.05).2 ++
         (execSeq defaultCfg (execSeq defaultCfg ⟨30, 500⟩ ["controle;up"] 0.05).1
           ["controle;down"] 0.05).2) :=
  gesture_skips_blocked_step defaultCfg ⟨30, 500⟩ 0.05
    ["controle;up"] ["controle;down"] "controle;left" "left" rfl (by decide)

/-! ### Splitting lemmas for frames built as `"controle;" ++ s` -/

theorem splitSemiL_ne_nil (l : List Char) : splitSemiL l ≠ [] := by
  induction l with
  | nil => simp [splitSemiL]
  | cons c rest ih =>
    unfold splitSemiL
    cases h : splitSemiL rest with
    | nil => simp
    | cons seg segs => by_cases hc : c = ';' <;> simp [hc]

theorem splitSemiL_no_semi (l : List Char) (h : ';' ∉ l) : splitSemiL l = [l] := by
  induction l with
  | nil => rfl
  | cons c rest ih =>
    have hc : c ≠ ';' := fun e => h (e ▸ List.mem_cons_self c rest)
    have hrest : ';' ∉ rest := fun e => h (List.mem_cons_of_mem c e)
    unfold splitSemiL
    rw [ih hrest]
    simp [hc]

theorem splitSemiL_append_semi (l1 l2 : List Char) (h : ';' ∉ l1) :
    splitSemiL (l1 ++ ';' :: l2) = l1 :: splitSemiL l2 := by
  induction l1 with
  | nil =>
    simp only [List.nil_append]
    conv_lhs => rw [splitSemiL]
    cases hs : splitSemiL l2 with
    | nil => exact absurd hs (splitSemiL_ne_nil l2)
    | cons seg segs => simp
  | cons c rest ih =>
    have hc : c ≠ ';' := fun e => h (e ▸ List.mem_cons_self c rest)
    have hrest : ';' ∉ rest := fun e => h (List.mem_cons_of_mem c e)
    rw [List.cons_append]
    conv_lhs => rw [splitSemiL]
    rw [ih hrest]
    simp [hc]

theorem string_data_append (s t : String) : (s ++ t).data = s.data ++ t.data := by
  cases s; cases t; rfl

theorem pySplitSemi_controle (s : String) (h : ';' ∉ s.data) :
    pySplitSemi ("controle;" ++ s) = ["controle", s] := by
  have hdata : ("controle;" ++ s).data = "controle".data ++ ';' :: s.data := by
    rw [string_data_append]
    rfl
  unfold pySplitSemi
  rw [hdata, splitSemiL_append_semi "controle".data s.data (by decide),
      splitSemiL_no_semi s.data h]
  rfl

/-! ### C10: unrecognised directions on the sender side -/

/-- C10 counterexample: the claim quantifies over every string `s`
outside {up, down, left, right}, but for `s = "up;x"` the frame
`"controle;up;x"` splits to second field `"up"`, so `_send_message`
computes displacement (0, −10), moves the mirrored position from
(400, 500) to (400, 490), and transmits — not the claimed zero
displacement with unchanged position. -/
theorem send_unknown_direction_cex :
    ("up;x" ≠ "up" ∧ "up;x" ≠ "down" ∧ "up;x" ≠ "left" ∧ "up;x" ≠ "right") ∧
    sendMessage defaultCfg ⟨400, 500⟩ ("controle;" ++ "up;x") =
      (⟨400, 490⟩, ["controle;up;x"]) ∧
    (⟨400, 490⟩ : SeqState) ≠ ⟨400, 500⟩ :=
  ⟨by decide, rfl, by decide⟩

/-- C10, amended: for every string `s` containing no `';'` and outside
{up, down, left, right}, the frame `"controle;" ++ s` computes a zero
displacement, and whenever the current mirrored position is in bounds
the validation passes, the frame is transmitted to the server anyway,
and the mirrored position is unchanged. -/
theorem send_unknown_direction_transmitted (cfg : Cfg) (st : SeqState) (s : String)
    (hsemi : ';' ∉ s.data)
    (hup : s ≠ "up") (hdown : s ≠ "down") (hleft : s ≠ "left") (hright : s ≠ "right") :
    calcularDeslocamento cfg s = (0, 0) ∧
    (inBoundsPt cfg st.x st.y →
      sendMessage cfg st ("controle;" ++ s) = (st, ["controle;" ++ s])) := by
  have hcalc : calcularDeslocamento cfg s = (0, 0) := by
    unfold calcularDeslocamento
    simp [hup, hdown, hleft, hright]
  refine ⟨hcalc, fun hb => ?_⟩
  have hget : (pySplitSemi ("controle;" ++ s)).get? 1 = some s := by
    rw [pySplitSemi_controle s hsemi]
    rfl
  have hv : validarMovimento cfg st (calcularDeslocamento cfg s).1
      (calcularDeslocamento cfg s).2 = true := by
    rw [hcalc, validar_iff]
    simpa using hb
  rw [sendMessage_some_valid cfg st ("controle;" ++ s) s hget hv, hcalc]
  cases st
  simp

/-- Witness for `send_unknown_direction_transmitted` at `s = "foo"`
from the default in-bounds position. -/
theorem send_unknown_direction_transmitted_witness :
    calcularDeslocamento defaultCfg "foo" = (0, 0) ∧
    sendMessage defaultCfg ⟨400, 500⟩ ("controle;" ++ "foo") =
      (⟨400, 500⟩, ["controle;" ++ "foo"]) :=
  ⟨(send_unknown_direction_transmitted defaultCfg ⟨400, 500⟩ "foo" (by decide)
      (by decide) (by decide) (by decide) (by decide)).1,
   (send_unknown_direction_transmitted defaultCfg ⟨400, 500⟩ "foo" (by decide)
      (by decide) (by decide) (by decide) (by decide)).2 (by decide)⟩

end RobotGame

namespace RobotGame

/-! ### Corridor lemmas: executing a replicated single-direction schedule -/

theorem inBoundsPt_congr (cfg : Cfg) {a b c d : ℤ} (h : inBoundsPt cfg a b)
    (h1 : a = c) (h2 : b = d) : inBoundsPt cfg c d := h1 ▸ h2 ▸ h

theorem execSeq_replicate (cfg : Cfg) (mov dir : String) (dx dy : ℤ)
    (hs : (pySplitSemi mov).get? 1 = some dir)
    (hcalc : calcularDeslocamento cfg dir = (dx, dy)) :
    ∀ (n : ℕ) (st : SeqState) (i : ℚ),
      (∀ k : ℕ, k ≤ n → inBoundsPt cfg (st.x + k * dx) (st.y + k * dy)) →
      execSeq cfg st (List.replicate n mov) i =
        (⟨st.x + n * dx, st.y + n * dy⟩, List.replicate n (mov, i)) := by
  intro n
  induction n with
  | zero =>
    intro st i _
    cases st
    simp [execSeq_nil]
  | succ n ih =>
    intro st i hb
    have h1 : inBoundsPt cfg (st.x + dx) (st.y + dy) := by
      refine inBoundsPt_congr cfg (hb 1 (by omega)) ?_ ?_ <;> push_cast <;> ring
    have hv : validarMovimento cfg st (calcularDeslocamento cfg dir).1
        (calcularDeslocamento cfg dir).2 = true := by
      rw [hcalc]
      exact (validar_iff cfg st dx dy).mpr h1
    rw [List.replicate_succ,
        execSeq_cons_valid cfg st mov dir (List.replicate n mov) i hs hv, hcalc]
    have ih2 := ih ⟨st.x + dx, st.y + dy⟩ i (by
      intro k hk
      refine inBoundsPt_congr cfg (hb (k + 1) (by omega)) ?_ ?_ <;> push_cast <;> ring)
    simp only at ih2 ⊢
    rw [ih2]
    refine Prod.ext ?_ ?_
    · show (⟨st.x + dx + n * dx, st.y + dy + n * dy⟩ : SeqState) = ⟨_, _⟩
      refine congrArg₂ SeqState.mk ?_ ?_ <;> push_cast <;> ring
    · simp [List.replicate_succ]

/-! ### Unfolding equations for `dodge` at the two legal directions -/

theorem dodge_left_eq (cfg : Cfg) (st : SeqState) :
    dodge cfg st "left" =
      .ok ((execSeq cfg
              (execSeq cfg st (List.replicate cfg.distancia.toNat ("controle;" ++ "left")) 0.05).1
              (List.replicate cfg.distancia.toNat ("controle;" ++ "right")) 0.05).1,
           (execSeq cfg st (List.replicate cfg.distancia.toNat ("controle;" ++ "left")) 0.05).2 ++
           (execSeq cfg
              (execSeq cfg st (List.replicate cfg.distancia.toNat ("controle;" ++ "left")) 0.05).1
              (List.replicate cfg.distancia.toNat ("controle;" ++ "right")) 0.05).2) := rfl

theorem dodge_right_eq (cfg : Cfg) (st : SeqState) :
    dodge cfg st "right" =
      .ok ((execSeq cfg
              (execSeq cfg st (List.replicate cfg.distancia.toNat ("controle;" ++ "right")) 0.05).1
              (List.replicate cfg.distancia.toNat ("controle;" ++ "left")) 0.05).1,
           (execSeq cfg st (List.replicate cfg.distancia.toNat ("controle;" ++ "right")) 0.05).2 ++
           (execSeq cfg
              (execSeq cfg st (List.replicate cfg.distancia.toNat ("controle;" ++ "right")) 0.05).1
              (List.replicate cfg.distancia.toNat ("controle;" ++ "left")) 0.05).2) := rfl

end RobotGame

namespace RobotGame

/-! ### C6: dodge is a round trip -/

set_option maxRecDepth 40000 in
/-- C6: with a direction in {left, right} and no boundary interference
along the traversed corridor, `dodge` transmits `distancia` frames in
the given direction followed by `distancia` frames in the opposite
direction and returns the mirrored position to its starting value.  In
particular, at the default arena 800×600 with margins (25, 35), start
(400, 500) and step 10, `dodge "left"` transmits exactly ten
"controle;left" frames then ten "controle;right" frames and the final
mirrored position is (400, 500). -/
theorem dodge_roundtrip (cfg : Cfg) (st : SeqState) :
    ((∀ k : ℕ, k ≤ cfg.distancia.toNat →
        inBoundsPt cfg (st.x - k * cfg.distancia) st.y) →
      dodge cfg st "left" =
        .ok (st,
          List.replicate cfg.distancia.toNat ("controle;" ++ "left", (0.05 : ℚ)) ++
          List.replicate cfg.distancia.toNat ("controle;" ++ "right", (0.05 : ℚ)))) ∧
    ((∀ k : ℕ, k ≤ cfg.distancia.toNat →
        inBoundsPt cfg (st.x + k * cfg.distancia) st.y) →
      dodge cfg st "right" =
        .ok (st,
          List.replicate cfg.distancia.toNat ("controle;" ++ "right", (0.05 : ℚ)) ++
          List.replicate cfg.distancia.toNat ("controle;" ++ "left", (0.05 : ℚ)))) ∧
    dodge defaultCfg ⟨400, 500⟩ "left" =
      .ok (⟨400, 500⟩, List.replicate 10 ("controle;left", (0.05 : ℚ)) ++
        List.replicate 10 ("controle;right", (0.05 : ℚ))) := by
  obtain ⟨sx, sy⟩ := st
  refine ⟨fun hb => ?_, fun hb => ?_, rfl⟩
  · have h1 := execSeq_replicate cfg ("controle;" ++ "left") "left" (-cfg.distancia) 0 rfl
      (calc_left cfg) cfg.distancia.toNat ⟨sx, sy⟩ 0.05 (by
        intro k hk
        refine inBoundsPt_congr cfg (hb k hk) ?_ ?_
        · ring
        · ring)
    have h2 := execSeq_replicate cfg ("controle;" ++ "right") "right" cfg.distancia 0 rfl
      (calc_right cfg) cfg.distancia.toNat
      ⟨sx + cfg.distancia.toNat * -cfg.distancia, sy + cfg.distancia.toNat * 0⟩ 0.05 (by
        intro k hk
        refine inBoundsPt_congr cfg (hb (cfg.distancia.toNat - k) (by omega)) ?_ ?_
        · push_cast [Nat.cast_sub hk]
          ring
        · ring)
    rw [dodge_left_eq, h1]
    simp only at h2 ⊢
    rw [h2]
    simp only
    refine congrArg Except.ok (Prod.ext ?_ rfl)
    refine congrArg₂ SeqState.mk ?_ ?_ <;> push_cast <;> ring
  · have h1 := execSeq_replicate cfg ("controle;" ++ "right") "right" cfg.distancia 0 rfl
      (calc_right cfg) cfg.distancia.toNat ⟨sx, sy⟩ 0.05 (by
        intro k hk
        refine inBoundsPt_congr cfg (hb k hk) ?_ ?_
        · ring
        · ring)
    have h2 := execSeq_replicate cfg ("controle;" ++ "left") "left" (-cfg.distancia) 0 rfl
      (calc_left cfg) cfg.distancia.toNat
      ⟨sx + cfg.distancia.toNat * cfg.distancia, sy + cfg.distancia.toNat * 0⟩ 0.05 (by
        intro k hk
        refine inBoundsPt_congr cfg (hb (cfg.distancia.toNat - k) (by omega)) ?_ ?_
        · push_cast [Nat.cast_sub hk]
          ring
        · ring)
    rw [dodge_right_eq, h1]
    simp only at h2 ⊢
    rw [h2]
    simp only
    refine congrArg Except.ok (Prod.ext ?_ rfl)
    refine congrArg₂ SeqState.mk ?_ ?_ <;> push_cast <;> ring

/-- Witness for `dodge_roundtrip` at the default configuration. -/
theorem dodge_roundtrip_witness :
    dodge defaultCfg ⟨400, 500⟩ "left" =
      .ok (⟨400, 500⟩,
        List.replicate (10 : ℤ).toNat ("controle;" ++ "left", (0.05 : ℚ)) ++
        List.replicate (10 : ℤ).toNat ("controle;" ++ "right", (0.05 : ℚ))) :=
  (dodge_roundtrip defaultCfg ⟨400, 500⟩).1 (by decide)

end RobotGame

namespace RobotGame

/-! ### C7: run rejects non-positive speed; speed controls pacing -/

/-- C7: for every speed that is not positive (in particular 0 and −1),
`run` fails with the InvalidSpeed error, transmits zero commands and
leaves the mirrored position untouched (no ok-result is produced at
all); for positive speed the whole `distancia`-step schedule executes
with an inter-command delay of exactly `1 / velocidade` after every
transmitted frame — speed controls pacing, not distance. -/
theorem run_invalid_speed_and_pacing (cfg : Cfg) (st : SeqState)
    (comando : String) (velocidade : ℚ) :
    (velocidade ≤ 0 → run cfg st comando velocidade = .error "InvalidSpeed") ∧
    (0 < velocidade →
      ∀ dx dy : ℤ,
        (pySplitSemi ("controle;" ++ comando)).get? 1 = some comando →
        calcularDeslocamento cfg comando = (dx, dy) →
        (∀ k : ℕ, k ≤ cfg.distancia.toNat →
          inBoundsPt cfg (st.x + k * dx) (st.y + k * dy)) →
        run cfg st comando velocidade =
          .ok (⟨st.x + cfg.distancia.toNat * dx, st.y + cfg.distancia.toNat * dy⟩,
            List.replicate cfg.distancia.toNat
              ("controle;" ++ comando, 1 / velocidade))) := by
  constructor
  · intro hv
    unfold run
    rw [if_pos hv]
  · intro hv dx dy hs hcalc hb
    unfold run
    rw [if_neg (not_le.mpr hv),
        execSeq_replicate cfg ("controle;" ++ comando) comando dx dy hs hcalc
          cfg.distancia.toNat st (1 / velocidade) hb]

/-- Witness for `run_invalid_speed_and_pacing`: speeds 0 and −1 fail
with zero commands; speed 2 runs the full left schedule with delay 1/2
after each frame. -/
theorem run_invalid_speed_and_pacing_witness :
    run defaultCfg ⟨400, 500⟩ "left" 0 = .error "InvalidSpeed" ∧
    run defaultCfg ⟨400, 500⟩ "left" (-1) = .error "InvalidSpeed" ∧
    run defaultCfg ⟨400, 500⟩ "left" 2 =
      .ok (⟨400 + (10 : ℤ).toNat * (-10), 500 + (10 : ℤ).toNat * 0⟩,
        List.replicate (10 : ℤ).toNat ("controle;" ++ "left", 1 / 2)) :=
  ⟨(run_invalid_speed_and_pacing defaultCfg ⟨400, 500⟩ "left" 0).1 (by norm_num),
   (run_invalid_speed_and_pacing defaultCfg ⟨400, 500⟩ "left" (-1)).1 (by norm_num),
   (run_invalid_speed_and_pacing defaultCfg ⟨400, 500⟩ "left" 2).2 (by norm_num)
     (-10) 0 rfl rfl (by decide)⟩

end RobotGame

namespace RobotGame

/-! ### Single-step and loop lemmas for `jump` -/

theorem execSeq_single_valid (cfg : Cfg) (st : SeqState) (mov dir : String)
    (dx dy : ℤ) (i : ℚ)
    (hs : (pySplitSemi mov).get? 1 = some dir)
    (hcalc : calcularDeslocamento cfg dir = (dx, dy))
    (h : inBoundsPt cfg (st.x + dx) (st.y + dy)) :
    execSeq cfg st [mov] i = (⟨st.x + dx, st.y + dy⟩, [(mov, i)]) := by
  have hv : validarMovimento cfg st (calcularDeslocamento cfg dir).1
      (calcularDeslocamento cfg dir).2 = true := by
    rw [hcalc]
    exact (validar_iff cfg st dx dy).mpr h
  rw [execSeq_cons_valid cfg st mov dir [] i hs hv, hcalc]
  simp [execSeq_nil]

theorem jumpLoop_zero (cfg : Cfg) (vert : String) (direcao : Option String)
    (st : SeqState) : jumpLoop cfg vert direcao 0 st = (st, []) := rfl

theorem jumpLoop_succ_none (cfg : Cfg) (vert : String) (n : ℕ) (st : SeqState) :
    jumpLoop cfg vert none (n + 1) st =
      ((jumpLoop cfg vert none n
          (execSeq cfg st ["controle;" ++ vert] 0.05).1).1,
       (execSeq cfg st ["controle;" ++ vert] 0.05).2 ++ [] ++
       (jumpLoop cfg vert none n
          (execSeq cfg st ["controle;" ++ vert] 0.05).1).2) := rfl

theorem jumpLoop_succ_some (cfg : Cfg) (vert lat : String) (n : ℕ) (st : SeqState) :
    jumpLoop cfg vert (some lat) (n + 1) st =
      ((jumpLoop cfg vert (some lat) n
          (execSeq cfg
            (execSeq cfg st ["controle;" ++ vert] 0.05).1
            ["controle;" ++ lat] 0.05).1).1,
       (execSeq cfg st ["controle;" ++ vert] 0.05).2 ++
       (execSeq cfg
          (execSeq cfg st ["controle;" ++ vert] 0.05).1
          ["controle;" ++ lat] 0.05).2 ++
       (jumpLoop cfg vert (some lat) n
          (execSeq cfg
            (execSeq cfg st ["controle;" ++ vert] 0.05).1
            ["controle;" ++ lat] 0.05).1).2) := rfl

theorem jumpLoop_none_run (cfg : Cfg) (vert : String) (dx dy : ℤ)
    (hs : (pySplitSemi ("controle;" ++ vert)).get? 1 = some vert)
    (hcalc : calcularDeslocamento cfg vert = (dx, dy)) :
    ∀ (n : ℕ) (st : SeqState),
      (∀ k : ℕ, k ≤ n → inBoundsPt cfg (st.x + k * dx) (st.y + k * dy)) →
      jumpLoop cfg vert none n st =
        (⟨st.x + n * dx, st.y + n * dy⟩,
         List.replicate n ("controle;" ++ vert, (0.05 : ℚ))) := by
  intro n
  induction n with
  | zero =>
    intro st _
    cases st
    simp [jumpLoop_zero]
  | succ n ih =>
    intro st hb
    have h1 : inBoundsPt cfg (st.x + dx) (st.y + dy) := by
      refine inBoundsPt_congr cfg (hb 1 (by omega)) ?_ ?_ <;> push_cast <;> ring
    rw [jumpLoop_succ_none,
        execSeq_single_valid cfg st ("controle;" ++ vert) vert dx dy 0.05 hs hcalc h1]
    simp only
    have ih2 := ih ⟨st.x + dx, st.y + dy⟩ (by
      intro k hk
      refine inBoundsPt_congr cfg (hb (k + 1) (by omega)) ?_ ?_ <;> push_cast <;> ring)
    simp only at ih2
    rw [ih2]
    refine Prod.ext ?_ ?_
    · show (⟨st.x + dx + n * dx, st.y + dy + n * dy⟩ : SeqState) = ⟨_, _⟩
      refine congrArg₂ SeqState.mk ?_ ?_ <;> push_cast <;> ring
    · simp [List.replicate_succ]

theorem jumpLoop_some_run (cfg : Cfg) (vert lat : String) (vx vy lx ly : ℤ)
    (hsv : (pySplitSemi ("controle;" ++ vert)).get? 1 = some vert)
    (hcv : calcularDeslocamento cfg vert = (vx, vy))
    (hsl : (pySplitSemi ("controle;" ++ lat)).get? 1 = some lat)
    (hcl : calcularDeslocamento cfg lat = (lx, ly)) :
    ∀ (n : ℕ) (st : SeqState),
      (∀ j : ℕ, j < n →
        inBoundsPt cfg (st.x + j * (vx + lx) + vx) (st.y + j * (vy + ly) + vy) ∧
        inBoundsPt cfg (st.x + (j + 1) * (vx + lx)) (st.y + (j + 1) * (vy + ly))) →
      jumpLoop cfg vert (some lat) n st =
        (⟨st.x + n * (vx + lx), st.y + n * (vy + ly)⟩,
         List.flatten (List.replicate n
           [("controle;" ++ vert, (0.05 : ℚ)), ("controle;" ++ lat, (0.05 : ℚ))])) := by
  intro n
  induction n with
  | zero =>
    intro st _
    cases st
    simp [jumpLoop_zero]
  | succ n ih =>
    intro st hb
    have h1 : inBoundsPt cfg (st.x + vx) (st.y + vy) := by
      refine inBoundsPt_congr cfg (hb 0 (by omega)).1 ?_ ?_ <;> push_cast <;> ring
    have h2 : inBoundsPt cfg (st.x + vx + lx) (st.y + vy + ly) := by
      refine inBoundsPt_congr cfg (hb 0 (by omega)).2 ?_ ?_ <;> push_cast <;> ring
    rw [jumpLoop_succ_some,
        execSeq_single_valid cfg st ("controle;" ++ vert) vert vx vy 0.05 hsv hcv h1]
    simp only
    rw [execSeq_single_valid cfg ⟨st.x + vx, st.y + vy⟩ ("controle;" ++ lat) lat
        lx ly 0.05 hsl hcl h2]
    simp only
    have ih2 := ih ⟨st.x + vx + lx, st.y + vy + ly⟩ (by
      intro j hj
      constructor
      · refine inBoundsPt_congr cfg (hb (j + 1) (by omega)).1 ?_ ?_ <;>
          push_cast <;> ring
      · refine inBoundsPt_congr cfg (hb (j + 1) (by omega)).2 ?_ ?_ <;>
          push_cast <;> ring)
    simp only at ih2
    rw [ih2]
    refine Prod.ext ?_ ?_
    · show (⟨st.x + vx + lx + n * (vx + lx), st.y + vy + ly + n * (vy + ly)⟩ : SeqState) = ⟨_, _⟩
      refine congrArg₂ SeqState.mk ?_ ?_ <;> push_cast <;> ring
    · simp [List.replicate_succ]

/-! ### Unfolding equations for `jump` -/

theorem jump_none_eq (cfg : Cfg) (st : SeqState) :
    jump cfg st none =
      if st.y ≤ cfg.margin_y then (st, [])
      else
        ((jumpLoop cfg "down" none cfg.altura.toNat
            (jumpLoop cfg "up" none cfg.altura.toNat st).1).1,
         (jumpLoop cfg "up" none cfg.altura.toNat st).2 ++
         (jumpLoop cfg "down" none cfg.altura.toNat
            (jumpLoop cfg "up" none cfg.altura.toNat st).1).2) := rfl

theorem jump_left_eq (cfg : Cfg) (st : SeqState) :
    jump cfg st (some "left") =
      if st.y ≤ cfg.margin_y then (st, [])
      else
        ((jumpLoop cfg "down" (some "left") cfg.altura.toNat
            (jumpLoop cfg "up" (some "left") cfg.altura.toNat st).1).1,
         (jumpLoop cfg "up" (some "left") cfg.altura.toNat st).2 ++
         (jumpLoop cfg "down" (some "left") cfg.altura.toNat
            (jumpLoop cfg "up" (some "left") cfg.altura.toNat st).1).2) := rfl

theorem jump_right_eq (cfg : Cfg) (st : SeqState) :
    jump cfg st (some "right") =
      if st.y ≤ cfg.margin_y then (st, [])
      else
        ((jumpLoop cfg "down" (some "right") cfg.altura.toNat
            (jumpLoop cfg "up" (some "right") cfg.altura.toNat st).1).1,
         (jumpLoop cfg "up" (some "right") cfg.altura.toNat st).2 ++
         (jumpLoop cfg "down" (some "right") cfg.altura.toNat
            (jumpLoop cfg "up" (some "right") cfg.altura.toNat st).1).2) := rfl

end RobotGame

namespace RobotGame

theorem jump_empty_eq (cfg : Cfg) (st : SeqState) :
    jump cfg st (some "") =
      if st.y ≤ cfg.margin_y then (st, [])
      else
        ((jumpLoop cfg "down" none cfg.altura.toNat
            (jumpLoop cfg "up" none cfg.altura.toNat st).1).1,
         (jumpLoop cfg "up" none cfg.altura.toNat st).2 ++
         (jumpLoop cfg "down" none cfg.altura.toNat
            (jumpLoop cfg "up" none cfg.altura.toNat st).1).2) := rfl

set_option maxRecDepth 40000 in
/-- C5: `jump` called with the current `y` at or above the top margin
(`y ≤ margin_y`) refuses the entire gesture — zero frames transmitted,
mirrored position unchanged — for every direction argument.  From
mid-arena (all scheduled intermediate positions in bounds), `jump`
with no lateral argument transmits exactly `2 × altura` primitive
frames, `altura` ups then `altura` downs, returning the position to its
start; with a lateral direction in {left, right} one lateral frame is
additionally interleaved after each up and after each down (not as two
separate phases), accumulating a drift of `2 × altura` lateral steps. -/
theorem jump_refusal_and_schedule (cfg : Cfg) (st : SeqState) :
    (∀ direcao : Option String,
      st.y ≤ cfg.margin_y → jump cfg st direcao = (st, [])) ∧
    (cfg.margin_y < st.y →
      (∀ k : ℕ, k ≤ cfg.altura.toNat →
        inBoundsPt cfg st.x (st.y - k * cfg.distancia)) →
      jump cfg st none =
        (st, List.replicate cfg.altura.toNat ("controle;" ++ "up", (0.05 : ℚ)) ++
             List.replicate cfg.altura.toNat ("controle;" ++ "down", (0.05 : ℚ)))) ∧
    (∀ lat : String, lat = "left" ∨ lat = "right" →
      cfg.margin_y < st.y →
      (∀ j : ℕ, j < cfg.altura.toNat →
        inBoundsPt cfg (st.x + j * (calcularDeslocamento cfg lat).1)
          (st.y - (j + 1) * cfg.distancia) ∧
        inBoundsPt cfg (st.x + (j + 1) * (calcularDeslocamento cfg lat).1)
          (st.y - (j + 1) * cfg.distancia)) →
      (∀ j : ℕ, j < cfg.altura.toNat →
        inBoundsPt cfg (st.x + (cfg.altura.toNat + j) * (calcularDeslocamento cfg lat).1)
          (st.y - cfg.altura.toNat * cfg.distancia + (j + 1) * cfg.distancia) ∧
        inBoundsPt cfg (st.x + (cfg.altura.toNat + j + 1) * (calcularDeslocamento cfg lat).1)
          (st.y - cfg.altura.toNat * cfg.distancia + (j + 1) * cfg.distancia)) →
      jump cfg st (some lat) =
        (⟨st.x + 2 * cfg.altura.toNat * (calcularDeslocamento cfg lat).1, st.y⟩,
         List.flatten (List.replicate cfg.altura.toNat
           [("controle;" ++ "up", (0.05 : ℚ)), ("controle;" ++ lat, (0.05 : ℚ))]) ++
         List.flatten (List.replicate cfg.altura.toNat
           [("controle;" ++ "down", (0.05 : ℚ)), ("controle;" ++ lat, (0.05 : ℚ))]))) := by
  refine ⟨?_, ?_, ?_⟩
  · -- refusal at or above the top margin
    intro direcao h
    cases direcao with
    | none => rw [jump_none_eq, if_pos h]
    | some d =>
      by_cases hd : d = ""
      · subst hd
        rw [jump_empty_eq, if_pos h]
      · unfold jump
        rw [if_neg (show ¬ (some d = some "") by simpa using hd)]
        split
        · simp
        · exact absurd h (by assumption)
  · -- vertical-only schedule
    intro htop hb
    obtain ⟨sx, sy⟩ := st
    have hup := jumpLoop_none_run cfg "up" 0 (-cfg.distancia) rfl (calc_up cfg)
      cfg.altura.toNat ⟨sx, sy⟩ (by
        intro k hk
        refine inBoundsPt_congr cfg (hb k hk) ?_ ?_ <;> push_cast <;> ring)
    have hdn := jumpLoop_none_run cfg "down" 0 cfg.distancia rfl (calc_down cfg)
      cfg.altura.toNat ⟨sx + cfg.altura.toNat * 0, sy + cfg.altura.toNat * -cfg.distancia⟩ (by
        intro k hk
        refine inBoundsPt_congr cfg (hb (cfg.altura.toNat - k) (by omega)) ?_ ?_
        · push_cast
          ring
        · push_cast [Nat.cast_sub hk]
          ring)
    rw [jump_none_eq, if_neg (not_le.mpr htop)]
    simp only at hup hdn ⊢
    rw [hup]
    simp only
    rw [hdn]
    simp only
    refine Prod.ext ?_ rfl
    refine congrArg₂ SeqState.mk ?_ ?_ <;> push_cast <;> ring
  · -- interleaved lateral schedule
    intro lat hlat htop hup0 hdn0
    obtain ⟨sx, sy⟩ := st
    rcases hlat with rfl | rfl
    · -- lat = "left"
      have hup := jumpLoop_some_run cfg "up" "left" 0 (-cfg.distancia)
        (-cfg.distancia) 0 rfl (calc_up cfg) rfl (calc_left cfg)
        cfg.altura.toNat ⟨sx, sy⟩ (by
          intro j hj
          constructor
          · refine inBoundsPt_congr cfg (hup0 j hj).1 ?_ ?_ <;>
              (try simp only [calc_left]) <;> push_cast <;> ring
          · refine inBoundsPt_congr cfg (hup0 j hj).2 ?_ ?_ <;>
              (try simp only [calc_left]) <;> push_cast <;> ring)
      have hdn := jumpLoop_some_run cfg "down" "left" 0 cfg.distancia
        (-cfg.distancia) 0 rfl (calc_down cfg) rfl (calc_left cfg)
        cfg.altura.toNat
        ⟨sx + cfg.altura.toNat * (0 + -cfg.distancia),
         sy + cfg.altura.toNat * (-cfg.distancia + 0)⟩ (by
          intro j hj
          constructor
          · refine inBoundsPt_congr cfg (hdn0 j hj).1 ?_ ?_ <;>
              (try simp only [calc_left]) <;> push_cast <;> ring
          · refine inBoundsPt_congr cfg (hdn0 j hj).2 ?_ ?_ <;>
              (try simp only [calc_left]) <;> push_cast <;> ring)
      rw [jump_left_eq, if_neg (not_le.mpr htop)]
      simp only at hup hdn ⊢
      rw [hup]
      simp only
      rw [hdn]
      simp only
      refine Prod.ext ?_ rfl
      refine congrArg₂ SeqState.mk ?_ ?_ <;> (try simp only [calc_left]) <;> push_cast <;> ring
    · -- lat = "right"
      have hup := jumpLoop_some_run cfg "up" "right" 0 (-cfg.distancia)
        cfg.distancia 0 rfl (calc_up cfg) rfl (calc_right cfg)
        cfg.altura.toNat ⟨sx, sy⟩ (by
          intro j hj
          constructor
          · refine inBoundsPt_congr cfg (hup0 j hj).1 ?_ ?_ <;>
              (try simp only [calc_right]) <;> push_cast <;> ring
          · refine inBoundsPt_congr cfg (hup0 j hj).2 ?_ ?_ <;>
              (try simp only [calc_right]) <;> push_cast <;> ring)
      have hdn := jumpLoop_some_run cfg "down" "right" 0 cfg.distancia
        cfg.distancia 0 rfl (calc_down cfg) rfl (calc_right cfg)
        cfg.altura.toNat
        ⟨sx + cfg.altura.toNat * (0 + cfg.distancia),
         sy + cfg.altura.toNat * (-cfg.distancia + 0)⟩ (by
          intro j hj
          constructor
          · refine inBoundsPt_congr cfg (hdn0 j hj).1 ?_ ?_ <;>
              (try simp only [calc_right]) <;> push_cast <;> ring
          · refine inBoundsPt_congr cfg (hdn0 j hj).2 ?_ ?_ <;>
              (try simp only [calc_right]) <;> push_cast <;> ring)
      rw [jump_right_eq, if_neg (not_le.mpr htop)]
      simp only at hup hdn ⊢
      rw [hup]
      simp only
      rw [hdn]
      simp only
      refine Prod.ext ?_ rfl
      refine congrArg₂ SeqState.mk ?_ ?_ <;> (try simp only [calc_right]) <;> push_cast <;> ring

/-- Witness for `jump_refusal_and_schedule` at the default
configuration: refusal at y = 35, a plain jump and a right-laterally
interleaved jump from (400, 500). -/
theorem jump_refusal_and_schedule_witness :
    jump defaultCfg ⟨400, 35⟩ none = (⟨400, 35⟩, []) ∧
    jump defaultCfg ⟨400, 500⟩ none =
      (⟨400, 500⟩,
       List.replicate (10 : ℤ).toNat ("controle;" ++ "up", (0.05 : ℚ)) ++
       List.replicate (10 : ℤ).toNat ("controle;" ++ "down", (0.05 : ℚ))) ∧
    jump defaultCfg ⟨400, 500⟩ (some "right") =
      (⟨400 + 2 * (10 : ℤ).toNat * (calcularDeslocamento defaultCfg "right").1, 500⟩,
       List.flatten (List.replicate (10 : ℤ).toNat
         [("controle;" ++ "up", (0.05 : ℚ)), ("controle;" ++ "right", (0.05 : ℚ))]) ++
       List.flatten (List.replicate (10 : ℤ).toNat
         [("controle;" ++ "down", (0.05 : ℚ)), ("controle;" ++ "right", (0.05 : ℚ))])) :=
  ⟨(jump_refusal_and_schedule defaultCfg ⟨400, 35⟩).1 none (by decide),
   (jump_refusal_and_schedule defaultCfg ⟨400, 500⟩).2.1 (by decide) (by decide),
   (jump_refusal_and_schedule defaultCfg ⟨400, 500⟩).2.2 "right" (Or.inr rfl)
     (by decide) (by decide) (by decide)⟩

end RobotGame
